import Mathlib

/-!
Verification development for the hecaitou blog audit/scraper repository.

Shallow embedding of `src/audit_collection.py` and `src/scraper.py`:
pure Python functions become Lean functions over `String`/`List Char`,
Python `date` objects become a `PyDate` structure compared lexicographically,
raised exceptions become `Except PyErr`, and the paginated HTTP feed becomes
an explicit list of pages (the k-th fetch returns the k-th page, fetches past
the end return an empty page).  External collaborators that the code calls
(urllib's split/quote/unquote, `str.strip`, `json.dumps`, the `csv` writer,
BeautifulSoup's `get_text`) are modelled at the level of their documented
string behaviour, restricted to what the audited code exercises; the
`ValueError` paths of `urlsplit` for malformed IPv6 netlocs are not modelled.
-/

namespace Hecaitou

/-! ### Python string helpers (`str.strip`, `str.lower`, `str.split`) -/

/-- Characters Python's `str.strip()` removes (`str.isspace` set). -/
def isPySpace (c : Char) : Bool :=
  c = ' ' || c = '\t' || c = '\n' || c.toNat = 11 || c.toNat = 12 || c = '\r' ||
  c.toNat = 28 || c.toNat = 29 || c.toNat = 30 || c.toNat = 31 ||
  c.toNat = 133 || c.toNat = 160 || c.toNat = 0x1680 ||
  (0x2000 ≤ c.toNat && c.toNat ≤ 0x200a) || c.toNat = 0x2028 || c.toNat = 0x2029 ||
  c.toNat = 0x202f || c.toNat = 0x205f || c.toNat = 0x3000

/-- Drop trailing characters satisfying `p`. -/
def dropTrailing (p : Char → Bool) (l : List Char) : List Char :=
  (l.reverse.dropWhile p).reverse

def pyStripList (l : List Char) : List Char :=
  dropTrailing isPySpace (l.dropWhile isPySpace)

/-- Python `str.strip()`. -/
def pyStrip (s : String) : String := String.mk (pyStripList s.data)

/-- Python `str.lower()` (ASCII range; the URLs audited are ASCII). -/
def lowerStr (s : String) : String := String.mk (s.data.map Char.toLower)

/-- Split a character list on a separator character (Python `str.split(sep)`
for a one-character separator). -/
def splitOnChar (sep : Char) : List Char → List (List Char)
  | [] => [[]]
  | c :: rest =>
    let r := splitOnChar sep rest
    if c = sep then [] :: r
    else
      match r with
      | [] => [[c]]
      | h :: t => (c :: h) :: t

/-- Python `str.split("\n")` on a `String`. -/
def splitLines (s : String) : List String :=
  (splitOnChar '\n' s.data).map String.mk

/-- Lexicographic `≤` on character lists (Python string comparison). -/
def charListLeB : List Char → List Char → Bool
  | [], _ => true
  | _ :: _, [] => false
  | a :: as, b :: bs => if a < b then true else if b < a then false else charListLeB as bs

/-- Boolean substring test: does `pat` occur inside `l`?  (Semantics of a
Python `re.search` for an escaped literal.) -/
def listContainsSub (pat : List Char) : List Char → Bool
  | [] => pat.isEmpty
  | c :: t => pat.isPrefixOf (c :: t) || listContainsSub pat t

/-- `pat` occurs as a substring of `hay`. -/
def containsSub (hay pat : String) : Bool := listContainsSub pat.data hay.data

/-! ### `urllib.parse` model: `quote`, `unquote`, `urlsplit`, `urlunsplit` -/

def hexVal (c : Char) : Option Nat :=
  if '0' ≤ c ∧ c ≤ '9' then some (c.toNat - '0'.toNat)
  else if 'a' ≤ c ∧ c ≤ 'f' then some (c.toNat - 'a'.toNat + 10)
  else if 'A' ≤ c ∧ c ≤ 'F' then some (c.toNat - 'A'.toNat + 10)
  else none

/-- UTF-8 encoding of one character, as byte values. -/
def utf8EncodeChar (c : Char) : List Nat :=
  let n := c.toNat
  if n < 0x80 then [n]
  else if n < 0x800 then [0xc0 + n / 0x40, 0x80 + n % 0x40]
  else if n < 0x10000 then
    [0xe0 + n / 0x1000, 0x80 + (n / 0x40) % 0x40, 0x80 + n % 0x40]
  else
    [0xf0 + n / 0x40000, 0x80 + (n / 0x1000) % 0x40, 0x80 + (n / 0x40) % 0x40, 0x80 + n % 0x40]

def replacementChar : Char := Char.ofNat 0xfffd

def isUtf8Cont (b : Nat) : Bool := 0x80 ≤ b && b < 0xc0

/-- UTF-8 decoding with `errors="replace"` (maximal-subpart policy), fuel =
list length; each step consumes at least one byte so the fuel never runs out. -/
def utf8DecodeFuel : Nat → List Nat → List Char
  | 0, _ => []
  | _ + 1, [] => []
  | fuel + 1, b :: rest =>
    if b < 0x80 then Char.ofNat b :: utf8DecodeFuel fuel rest
    else if b < 0xc2 then replacementChar :: utf8DecodeFuel fuel rest
    else if b < 0xe0 then
      match rest with
      | b2 :: rest2 =>
        if isUtf8Cont b2 then
          Char.ofNat ((b - 0xc0) * 0x40 + (b2 - 0x80)) :: utf8DecodeFuel fuel rest2
        else replacementChar :: utf8DecodeFuel fuel rest
      | [] => [replacementChar]
    else if b < 0xf0 then
      match rest with
      | b2 :: b3 :: rest3 =>
        if isUtf8Cont b2 && isUtf8Cont b3 && !(b = 0xe0 && b2 < 0xa0) && !(b = 0xed && 0xa0 ≤ b2) then
          Char.ofNat ((b - 0xe0) * 0x1000 + (b2 - 0x80) * 0x40 + (b3 - 0x80)) :: utf8DecodeFuel fuel rest3
        else replacementChar :: utf8DecodeFuel fuel rest
      | _ => [replacementChar]
    else if b < 0xf5 then
      match rest with
      | b2 :: b3 :: b4 :: rest4 =>
        if isUtf8Cont b2 && isUtf8Cont b3 && isUtf8Cont b4 &&
            !(b = 0xf0 && b2 < 0x90) && !(b = 0xf4 && 0x90 ≤ b2) then
          Char.ofNat ((b - 0xf0) * 0x40000 + (b2 - 0x80) * 0x1000 + (b3 - 0x80) * 0x40 + (b4 - 0x80)) ::
            utf8DecodeFuel fuel rest4
        else replacementChar :: utf8DecodeFuel fuel rest
      | _ => [replacementChar]
    else replacementChar :: utf8DecodeFuel fuel rest

def utf8Decode (bs : List Nat) : List Char := utf8DecodeFuel bs.length bs

/-- Byte stream of a percent-encoded string: a `%` followed by two hex digits
becomes that byte, any other character contributes its UTF-8 bytes
(CPython `unquote`'s `unquote_to_bytes` pass). -/
def percentDecodeBytes : List Char → List Nat
  | [] => []
  | '%' :: h1 :: h2 :: rest =>
    match hexVal h1, hexVal h2 with
    | some a, some b => (a * 16 + b) :: percentDecodeBytes rest
    | _, _ => '%'.toNat :: percentDecodeBytes (h1 :: h2 :: rest)
  | c :: rest => utf8EncodeChar c ++ percentDecodeBytes rest

/-- Python `urllib.parse.unquote(s)` (UTF-8, `errors="replace"`). -/
def pyUnquote (s : String) : String := String.mk (utf8Decode (percentDecodeBytes s.data))

/-- Characters `urllib.parse.quote` never escapes (`_ALWAYS_SAFE`). -/
def alwaysSafeChar (c : Char) : Bool :=
  ('A' ≤ c && c ≤ 'Z') || ('a' ≤ c && c ≤ 'z') || ('0' ≤ c && c ≤ '9') ||
  c = '_' || c = '.' || c = '-' || c = '~'

def hexDigitUpper (n : Nat) : Char :=
  if n < 10 then Char.ofNat ('0'.toNat + n) else Char.ofNat ('A'.toNat + n - 10)

def percentEncodeByte (b : Nat) : List Char := ['%', hexDigitUpper (b / 16), hexDigitUpper (b % 16)]

/-- Python `urllib.parse.quote(s, safe)`. -/
def pyQuote (safe : List Char) (s : String) : String :=
  String.mk ((s.data.map (fun c =>
    if alwaysSafeChar c || safe.contains c then [c]
    else (utf8EncodeChar c).map percentEncodeByte |>.flatten)).flatten)

structure SplitResult where
  scheme : String
  netloc : String
  path : String
  query : String
  fragment : String
deriving DecidableEq

/-- `_WHATWG_C0_CONTROL_OR_SPACE`, lstripped from the URL by `urlsplit`. -/
def c0ControlOrSpace (c : Char) : Bool := c.toNat ≤ 0x20

/-- `_UNSAFE_URL_BYTES_TO_REMOVE` (`\t`, `\r`, `\n`), removed by `urlsplit`. -/
def badUrlByte (c : Char) : Bool := c = '\t' || c = '\r' || c = '\n'

def schemeChar (c : Char) : Bool :=
  ('A' ≤ c && c ≤ 'Z') || ('a' ≤ c && c ≤ 'z') || ('0' ≤ c && c ≤ '9') ||
  c = '+' || c = '-' || c = '.'

def isAsciiAlpha (c : Char) : Bool := ('A' ≤ c && c ≤ 'Z') || ('a' ≤ c && c ≤ 'z')

/-- The scheme-splitting step of `urlsplit`: `i = url.find(':')`, a scheme is
recognised when `i > 0`, the first character is an ASCII letter and everything
before the colon is a scheme character. -/
def splitScheme (l : List Char) : String × List Char :=
  match l.findIdx? (· = ':') with
  | some i =>
    if 0 < i ∧ isAsciiAlpha (l.headD ' ') ∧ (l.take i).all schemeChar then
      (String.mk ((l.take i).map Char.toLower), l.drop (i + 1))
    else ("", l)
  | none => ("", l)

/-- `_splitnetloc(url, 2)`: the authority runs to the first `/`, `?` or `#`. -/
def splitNetlocAt2 (l : List Char) : List Char × List Char :=
  let rest := l.drop 2
  match rest.findIdx? (fun c => c = '/' || c = '?' || c = '#') with
  | some j => (rest.take j, rest.drop j)
  | none => (rest, [])

/-- Split at the first occurrence of `sep` (Python `str.split(sep, 1)` guarded
by `sep in url`). -/
def splitOnceChar (sep : Char) (l : List Char) : List Char × Option (List Char) :=
  match l.findIdx? (· = sep) with
  | some i => (l.take i, some (l.drop (i + 1)))
  | none => (l, none)

/-- Python `urllib.parse.urlsplit` (scheme is lowercased there; the
`ValueError` checks for bracketed hosts are not modelled). -/
def urlsplit (url : String) : SplitResult :=
  let l0 := url.data.dropWhile c0ControlOrSpace
  let l1 := l0.filter (fun c => !badUrlByte c)
  let (scheme, l2) := splitScheme l1
  let (netloc, l3) := if l2.take 2 = ['/', '/'] then splitNetlocAt2 l2 else ([], l2)
  let (l4, fragOpt) := splitOnceChar '#' l3
  let (l5, queryOpt) := splitOnceChar '?' l4
  { scheme := scheme, netloc := String.mk netloc, path := String.mk l5,
    query := String.mk (queryOpt.getD []), fragment := String.mk (fragOpt.getD []) }

/-- Python `urllib.parse.urlunsplit`. -/
def urlunsplit (p : SplitResult) : String :=
  let url0 := p.path
  let url1 :=
    if p.netloc ≠ "" ∨ (url0 ≠ "" ∧ url0.data.take 2 = ['/', '/']) then
      "//" ++ p.netloc ++ (if url0 ≠ "" ∧ url0.data.take 1 ≠ ['/'] then "/" ++ url0 else url0)
    else url0
  let url2 := if p.scheme ≠ "" then p.scheme ++ ":" ++ url1 else url1
  let url3 := if p.query ≠ "" then url2 ++ "?" ++ p.query else url2
  if p.fragment ≠ "" then url3 ++ "#" ++ p.fragment else url3

/-- `safe` set used for the path component: `"/~%:@!$&'()*+,;="`. -/
def pathSafe : List Char :=
  ['/', '~', '%', ':', '@', '!', '$', '&', Char.ofNat 39, '(', ')', '*', '+', ',', ';', '=']

/-- `safe` set used for the query component: `"=&%"`. -/
def querySafe : List Char := ['=', '&', '%']

/-- `safe` set used for the fragment component: `""`. -/
def fragmentSafe : List Char := []

/-- `audit_collection.normalize_url`. -/
def normalize_url (url : String) : String :=
  let parts := urlsplit (pyStrip url)
  urlunsplit
    { scheme := lowerStr parts.scheme
      netloc := lowerStr parts.netloc
      path := pyQuote pathSafe (pyUnquote parts.path)
      query := pyQuote querySafe (pyUnquote parts.query)
      fragment := pyQuote fragmentSafe (pyUnquote parts.fragment) }

/-! ### Dates (`datetime.date`, compared lexicographically) -/

structure PyDate where
  year : Nat
  month : Nat
  day : Nat
deriving DecidableEq

/-- Python `date.__lt__` (lexicographic on year, month, day). -/
def pyDateLt (a b : PyDate) : Prop :=
  a.year < b.year ∨ (a.year = b.year ∧ (a.month < b.month ∨ (a.month = b.month ∧ a.day < b.day)))

/-- Python `date.__le__`. -/
def pyDateLe (a b : PyDate) : Prop :=
  a.year < b.year ∨ (a.year = b.year ∧ (a.month < b.month ∨ (a.month = b.month ∧ a.day ≤ b.day)))

instance (a b : PyDate) : Decidable (pyDateLt a b) := by unfold pyDateLt; infer_instance

instance (a b : PyDate) : Decidable (pyDateLe a b) := by unfold pyDateLe; infer_instance

def pad2 (n : Nat) : String := if n < 10 then "0" ++ Nat.repr n else Nat.repr n

def pad4 (n : Nat) : String :=
  if n < 10 then "000" ++ Nat.repr n
  else if n < 100 then "00" ++ Nat.repr n
  else if n < 1000 then "0" ++ Nat.repr n
  else Nat.repr n

/-- Python `date.isoformat()`. -/
def isoformat (d : PyDate) : String := pad4 d.year ++ "-" ++ pad2 d.month ++ "-" ++ pad2 d.day

/-! ### Feed walker (`audit_collection.iter_recent_posts`)

A raw Blogger feed entry.  The `$t` string fields are carried directly; the
ISO-8601 `published` timestamp is carried as its already-parsed calendar date
(`datetime.fromisoformat(...).date()` is an external collaborator), with
`none` standing for a missing/empty field. -/

structure RawLink where
  rel : String
  href : Option String
deriving DecidableEq

structure RawEntry where
  title : Option String
  links : List RawLink
  published : Option PyDate
  content : Option String
  summary : Option String
  categories : List (Option String)
deriving DecidableEq

structure FeedEntry where
  title : String
  url : String
  published : PyDate
  labels : List String
  content : String
deriving DecidableEq

/-- `audit_collection._extract_entry_url`: first link with `rel == "alternate"`
and a truthy `href`. -/
def extractEntryUrl : List RawLink → Option String
  | [] => none
  | link :: rest =>
    if link.rel = "alternate" then
      match link.href with
      | some href => if href ≠ "" then some href else extractEntryUrl rest
      | none => extractEntryUrl rest
    else extractEntryUrl rest

/-- String `≤` as a relation, for Python's `sorted` on strings. -/
def strLeRel (a b : String) : Prop := charListLeB a.data b.data = true

instance : DecidableRel strLeRel := fun a b => by unfold strLeRel; infer_instance

/-- `tuple(sorted({(c.get("term") or "").strip() for c in categories if ...}))`. -/
def parseLabels (categories : List (Option String)) : List String :=
  List.insertionSort strLeRel
    ((categories.filterMap (fun c =>
      let t := pyStrip (c.getD "")
      if t ≠ "" then some t else none)).eraseDups)

/-- One iteration of the entry-parsing loop in `iter_recent_posts`: entries
missing a truthy title, link or publish timestamp are skipped. -/
def parseEntry (raw : RawEntry) : Option FeedEntry :=
  let title := pyStrip (raw.title.getD "")
  match extractEntryUrl raw.links, raw.published with
  | some url, some pub =>
    if title ≠ "" then
      let c0 := pyStrip (raw.content.getD "")
      let content := if c0 ≠ "" then c0 else pyStrip (raw.summary.getD "")
      some { title := title, url := normalize_url url, published := pub,
             labels := parseLabels raw.categories, content := content }
    else none
  | _, _ => none

def parsePage (raws : List RawEntry) : List FeedEntry := raws.filterMap parseEntry

/-- `min((e.published for e in page_entries), default=None)`. -/
def oldestDate : List FeedEntry → Option PyDate
  | [] => none
  | e :: rest =>
    some (rest.foldl (fun acc x => if pyDateLt x.published acc then x.published else acc) e.published)

/-- The `while True` fetch loop of `iter_recent_posts` over an explicit page
list; returns the list of fetched `start-index` offsets and the yielded
entries.  A fetch past the end of the source returns an empty page. -/
def iterRecentPostsGo (s e : PyDate) (mr : Nat) : List (List RawEntry) → Nat → List Nat × List FeedEntry
  | [], idx => ([idx], [])
  | page :: rest, idx =>
    if page = [] then ([idx], [])
    else
      let pes := parsePage page
      let yields := pes.filter (fun en => decide (pyDateLe s en.published ∧ pyDateLe en.published e))
      match oldestDate pes with
      | none => ([idx], yields)
      | some od =>
        if pyDateLt od s then ([idx], yields)
        else
          let next := iterRecentPostsGo s e mr rest (idx + mr)
          (idx :: next.1, yields ++ next.2)

/-- `audit_collection.iter_recent_posts` (offsets start at 1 and advance by
`max_results`). -/
def iter_recent_posts (pages : List (List RawEntry)) (s e : PyDate) (mr : Nat) :
    List Nat × List FeedEntry :=
  iterRecentPostsGo s e mr pages 1

/-! ### Classifier (the `if/elif` chain in `audit_collection.main`) -/

/-- `re.compile("|".join(re.escape(k) for k in kws)).search(s)` as a Boolean:
some keyword occurs as a substring. -/
def searchAny (kws : List String) (s : String) : Bool :=
  kws.any (fun k => listContainsSub k.data s.data)

/-- The classification `if/elif` chain: labels, then title keywords, then
content keywords; a falsy criterion (`include_labels` empty, pattern `None`)
is skipped. -/
def classifyEntry (includeLabels titleKws contentKws : List String) (e : FeedEntry) : Bool :=
  if !includeLabels.isEmpty && e.labels.any (fun label => includeLabels.contains label) then true
  else if !titleKws.isEmpty && searchAny titleKws e.title then true
  else if !contentKws.isEmpty && searchAny contentKws e.content then true
  else false

/-! ### Gap reporter (`audit_collection.main` accumulation and renderers) -/

/-- Loop body: a classified entry is appended to `matched`, and also to
`missing` when its (already normalized) URL is not in the local index. -/
def auditStep (L T C localUrls : List String) (acc : List FeedEntry × List FeedEntry)
    (e : FeedEntry) : List FeedEntry × List FeedEntry :=
  if classifyEntry L T C e then
    (acc.1 ++ [e], if localUrls.contains e.url then acc.2 else acc.2 ++ [e])
  else acc

/-- The `for entry in iter_recent_posts(...)` accumulation loop. -/
def auditLoop (L T C localUrls : List String) (stream : List FeedEntry) :
    List FeedEntry × List FeedEntry :=
  stream.foldl (auditStep L T C localUrls) ([], [])

/-- The sort key relation `key=lambda x: (x.published, x.url)` (tuple `≤`). -/
def entryKeyLe (a b : FeedEntry) : Prop :=
  pyDateLt a.published b.published ∨
    (a.published = b.published ∧ charListLeB a.url.data b.url.data = true)

instance : DecidableRel entryKeyLe := fun a b => by unfold entryKeyLe; infer_instance

/-- `sorted(missing, key=lambda x: (x.published, x.url))` (Python's sort is
stable; a stable sort's output is unique, so insertion sort models it). -/
def sortMissing (missing : List FeedEntry) : List FeedEntry :=
  List.insertionSort entryKeyLe missing

/-- The run-level `summary` dict (insertion order preserved). -/
structure Summary where
  base_url : String
  fromDate : String
  toDate : String
  local_dir : String
  local_count : Nat
  matched_count : Nat
  missing_count : Nat
deriving DecidableEq

/-- `json.dumps` escaping for one character (`ensure_ascii=False`). -/
def jsonEscapeChar (c : Char) : List Char :=
  if c = '"' then ['\\', '"']
  else if c = '\\' then ['\\', '\\']
  else if c = '\n' then ['\\', 'n']
  else if c = '\r' then ['\\', 'r']
  else if c = '\t' then ['\\', 't']
  else if c.toNat = 8 then ['\\', 'b']
  else if c.toNat = 12 then ['\\', 'f']
  else if c.toNat < 0x20 then
    '\\' :: 'u' :: '0' :: '0' :: [hexDigitUpper (c.toNat / 16), hexDigitUpper (c.toNat % 16)]
  else [c]

/-- A JSON string literal as `json.dumps` renders it with `ensure_ascii=False`
(lowercase hex never arises for the control range below 0x20 digits). -/
def jsonStr (s : String) : String :=
  "\"" ++ String.mk ((s.data.map jsonEscapeChar).flatten) ++ "\""

/-- `json.dumps(summary, ensure_ascii=False)` (no indent: `", "`/`": "`
separators, insertion order). -/
def summaryJson (s : Summary) : String :=
  "\x7b\"base_url\": " ++ jsonStr s.base_url ++
  ", \"from\": " ++ jsonStr s.fromDate ++
  ", \"to\": " ++ jsonStr s.toDate ++
  ", \"local_dir\": " ++ jsonStr s.local_dir ++
  ", \"local_count\": " ++ Nat.repr s.local_count ++
  ", \"matched_count\": " ++ Nat.repr s.matched_count ++
  ", \"missing_count\": " ++ Nat.repr s.missing_count ++ "\x7d"

def textRow (e : FeedEntry) : String :=
  isoformat e.published ++ "\t" ++ e.title ++ "\t" ++ e.url ++ "\t" ++
    String.intercalate "," e.labels ++ "\n"

/-- `write_text`: summary JSON line, then one tab-separated row per missing
entry in `(published, url)` order. -/
def write_text (s : Summary) (missing : List FeedEntry) : String :=
  summaryJson s ++ "\n" ++ String.join ((sortMissing missing).map textRow)

/-- The `"labels"` array of one missing item, as `json.dumps(..., indent=2)`
renders it at depth 3. -/
def jsonLabelsArr : List String → String
  | [] => "[]"
  | labels =>
    "[\n" ++ String.intercalate ",\n" (labels.map (fun l => "        " ++ jsonStr l)) ++ "\n      ]"

/-- One `missing` item object, as `json.dumps(..., indent=2)` renders it. -/
def jsonMissingItem (e : FeedEntry) : String :=
  "    \x7b\n      \"published\": " ++ jsonStr (isoformat e.published) ++
  ",\n      \"title\": " ++ jsonStr e.title ++
  ",\n      \"url\": " ++ jsonStr e.url ++
  ",\n      \"labels\": " ++ jsonLabelsArr e.labels ++ "\n    \x7d"

def jsonMissingArr : List FeedEntry → String
  | [] => "[]"
  | missing => "[\n" ++ String.intercalate ",\n" (missing.map jsonMissingItem) ++ "\n  ]"

/-- `write_json`: `json.dumps({**summary, "missing": [...]}, ensure_ascii=False,
indent=2) + "\n"`. -/
def write_json (s : Summary) (missing : List FeedEntry) : String :=
  "\x7b\n  \"base_url\": " ++ jsonStr s.base_url ++
  ",\n  \"from\": " ++ jsonStr s.fromDate ++
  ",\n  \"to\": " ++ jsonStr s.toDate ++
  ",\n  \"local_dir\": " ++ jsonStr s.local_dir ++
  ",\n  \"local_count\": " ++ Nat.repr s.local_count ++
  ",\n  \"matched_count\": " ++ Nat.repr s.matched_count ++
  ",\n  \"missing_count\": " ++ Nat.repr s.missing_count ++
  ",\n  \"missing\": " ++ jsonMissingArr (sortMissing missing) ++ "\n\x7d\n"

/-- `csv` field quoting (`QUOTE_MINIMAL`). -/
def csvField (s : String) : String :=
  if s.data.any (fun c => c = ',' || c = '"' || c = '\n' || c = '\r') then
    "\"" ++ String.mk ((s.data.map (fun c => if c = '"' then ['"', '"'] else [c])).flatten) ++ "\""
  else s

def csvRow (e : FeedEntry) : String :=
  String.intercalate ","
    ([isoformat e.published, e.title, e.url, String.intercalate "," e.labels].map csvField) ++ "\r\n"

/-- `write_csv`: header plus one row per missing entry; the run summary is
never written (the `summary` argument is unused, mirroring the closure). -/
def write_csv (_s : Summary) (missing : List FeedEntry) : String :=
  "published,title,url,labels\r\n" ++ String.join ((sortMissing missing).map csvRow)

/-! ### Local archive index (`audit_collection.read_local_urls`)

The directory is modelled as a list of `(file name, file text)` pairs;
`local_dir.glob("*.md")` keeps the names ending in `.md` and `sorted` orders
them by name. -/

/-- `re.search(r"^- 链接：(.*)$", text, flags=re.M)`: the first line starting
with the link marker, returning the rest of that line. -/
def firstLinkLine (text : String) : Option String :=
  (splitLines text).findSome? (fun line =>
    if ("- 链接：").data.isPrefixOf line.data then
      some (String.mk (line.data.drop ("- 链接：").data.length))
    else none)

/-- `Path` ordering for plain file names is string ordering. -/
def fileLeRel (a b : String × String) : Prop := charListLeB a.1.data b.1.data = true

instance : DecidableRel fileLeRel := fun a b => by unfold fileLeRel; infer_instance

/-- `audit_collection.read_local_urls`; the Python `set` is modelled as a
duplicate-free list in insertion order. -/
def read_local_urls (files : List (String × String)) : List String :=
  (List.insertionSort fileLeRel
      (files.filter (fun f => (".md").data.isSuffixOf f.1.data))).foldl
    (fun urls f =>
      match firstLinkLine f.2 with
      | none => urls
      | some raw =>
        let url := pyStrip raw
        if url ≠ "" then
          (if urls.contains (normalize_url url) then urls else urls ++ [normalize_url url])
        else urls)
    []

/-! ### Structural text extractor (`scraper.extract_text_with_structure`)

The DOM subtree is a tree of element nodes (tag name, attributes, children)
and text nodes (`NavigableString`).  `get_text(strip=True)` concatenates the
stripped descendant strings in document order. -/

inductive HNode where
  | text : String → HNode
  | elem : String → List (String × String) → List HNode → HNode

mutual

/-- BeautifulSoup `node.get_text(strip=True)`. -/
def getTextStrip : HNode → String
  | .text s => pyStrip s
  | .elem _ _ children => getTextStripList children

def getTextStripList : List HNode → String
  | [] => ""
  | c :: rest => getTextStrip c ++ getTextStripList rest

end

/-- `Tag.get(key, default)`. -/
def getAttr (attrs : List (String × String)) (key dflt : String) : String :=
  match attrs.find? (fun kv => kv.1 = key) with
  | some kv => kv.2
  | none => dflt

/-- `int(child.name[1])` for a heading tag name. -/
def headingLevel (name : String) : Nat :=
  match name.data with
  | _ :: c :: _ => c.toNat - '0'.toNat
  | _ => 0

/-- `li.get_text(strip=True)` over `child.find_all("li", recursive=False)`. -/
def directLiTexts (children : List HNode) : List String :=
  children.filterMap (fun c =>
    match c with
    | .elem name _ kids => if name = "li" then some (getTextStripList kids) else none
    | .text _ => none)

mutual

/-- The `for child in elem.children` dispatch loop of
`extract_text_with_structure`, producing the emitted block lines. -/
def extractLines : List HNode → List String
  | [] => []
  | child :: rest => extractChildLines child ++ extractLines rest

/-- Blocks emitted for one child node (first matching tag rule wins; the
final branch is the recursive `extract_text_with_structure(child)` call on a
tag, which loops over that tag's children). -/
def extractChildLines : HNode → List String
  | .text s =>
    let t := pyStrip s
    if t ≠ "" then [t] else []
  | .elem name attrs children =>
    if name = "p" ∨ name = "div" then
      let t := getTextStripList children
      if t ≠ "" then [t, ""] else []
    else if name = "h1" ∨ name = "h2" ∨ name = "h3" ∨ name = "h4" ∨ name = "h5" ∨ name = "h6" then
      let t := getTextStripList children
      if t ≠ "" then
        [String.mk (List.replicate (headingLevel name + 1) '#') ++ " " ++ t, ""]
      else []
    else if name = "br" then [""]
    else if name = "ul" ∨ name = "ol" then
      (directLiTexts children).filterMap (fun t => if t ≠ "" then some ("- " ++ t) else none) ++ [""]
    else if name = "blockquote" then
      let t := getTextStripList children
      if t ≠ "" then (splitLines t).map (fun line => "> " ++ pyStrip line) ++ [""] else []
    else if name = "a" then
      let t := getTextStripList children
      let href := getAttr attrs "href" ""
      if t ≠ "" ∧ href ≠ "" then ["[" ++ t ++ "](" ++ href ++ ")"] else []
    else if name = "img" then
      let src := getAttr attrs "src" ""
      let alt := getAttr attrs "alt" "图片"
      if src ≠ "" then ["![" ++ alt ++ "](" ++ src ++ ")", ""] else []
    else
      let t := String.intercalate "\n" (extractLines children)
      if pyStrip t ≠ "" then [t] else []

end

/-- `scraper.extract_text_with_structure` on an element or text node. -/
def extract_text_with_structure : HNode → String
  | .text s => pyStrip s
  | .elem _ _ children => String.intercalate "\n" (extractLines children)

/-! ### Article extraction and the content-acquisition batch loop
(`scraper.extract_article_content`, `scraper.main`) -/

inductive PyErr where
  | valueError : String → PyErr
deriving DecidableEq

def isLeapYear (y : Nat) : Bool := (y % 4 = 0 && y % 100 ≠ 0) || y % 400 = 0

def daysInMonth (y m : Nat) : Nat :=
  if m = 2 then (if isLeapYear y then 29 else 28)
  else if m = 4 ∨ m = 6 ∨ m = 9 ∨ m = 11 then 30
  else 31

/-- The `datetime(year, month, day)` constructor: raises `ValueError` on an
out-of-range component. -/
def datetimeMk (y m d : Nat) : Except PyErr PyDate :=
  if 1 ≤ y ∧ y ≤ 9999 ∧ 1 ≤ m ∧ m ≤ 12 ∧ 1 ≤ d ∧ d ≤ daysInMonth y m then
    .ok ⟨y, m, d⟩
  else .error (.valueError "date component out of range")

def digitVal (c : Char) : Nat := c.toNat - '0'.toNat

def dateSepYM (c : Char) : Bool := c = '-' || c = '年' || c = '/'

def dateSepMD (c : Char) : Bool := c = '-' || c = '月' || c = '/'

/-- Final `\d{1,2}` of the page-date regex (greedy, nothing follows). -/
def matchDay : List Char → Option Nat
  | [] => none
  | [a] => if a.isDigit then some (digitVal a) else none
  | a :: b :: _ =>
    if a.isDigit then
      (if b.isDigit then some (digitVal a * 10 + digitVal b) else some (digitVal a))
    else none

def matchSepDay : List Char → Option Nat
  | [] => none
  | s :: rest => if dateSepMD s then matchDay rest else none

/-- `(\d{1,2})[-月/](\d{1,2})`: the month is matched greedily with
backtracking from two digits to one. -/
def matchMonthDay : List Char → Option (Nat × Nat)
  | [] => none
  | [a] => if a.isDigit then none else none
  | a :: b :: rest =>
    if a.isDigit && b.isDigit then
      match matchSepDay rest with
      | some d => some (digitVal a * 10 + digitVal b, d)
      | none =>
        match matchSepDay (b :: rest) with
        | some d => some (digitVal a, d)
        | none => none
    else if a.isDigit then
      match matchSepDay (b :: rest) with
      | some d => some (digitVal a, d)
      | none => none
    else none

/-- Match `(\d{4})[-年/](\d{1,2})[-月/](\d{1,2})` at the head of the list. -/
def dateMatchAt : List Char → Option (Nat × Nat × Nat)
  | c1 :: c2 :: c3 :: c4 :: s1 :: rest =>
    if c1.isDigit && c2.isDigit && c3.isDigit && c4.isDigit && dateSepYM s1 then
      match matchMonthDay rest with
      | some (m, d) =>
        some (digitVal c1 * 1000 + digitVal c2 * 100 + digitVal c3 * 10 + digitVal c4, m, d)
      | none => none
    else none
  | _ => none

/-- `re.search` of the page-date pattern: leftmost match. -/
def searchDate : List Char → Option (Nat × Nat × Nat)
  | [] => none
  | c :: t =>
    match dateMatchAt (c :: t) with
    | some r => some r
    | none => searchDate t

/-- Match `/(\d{4})/(\d{2})/` at the head of the list. -/
def urlDateMatchAt : List Char → Option (Nat × Nat)
  | '/' :: a :: b :: c :: d :: '/' :: e :: f :: '/' :: _ =>
    if a.isDigit && b.isDigit && c.isDigit && d.isDigit && e.isDigit && f.isDigit then
      some (digitVal a * 1000 + digitVal b * 100 + digitVal c * 10 + digitVal d,
            digitVal e * 10 + digitVal f)
    else none
  | _ => none

def searchUrlDate : List Char → Option (Nat × Nat)
  | [] => none
  | c :: t =>
    match urlDateMatchAt (c :: t) with
    | some r => some r
    | none => searchUrlDate t

/-- `scraper.parse_date_from_url`: `datetime(year, month, 1)` can raise for a
matched but out-of-range month. -/
def parse_date_from_url (url : String) : Except PyErr (Option PyDate) :=
  match searchUrlDate url.data with
  | some (y, m) => (datetimeMk y m 1).map some
  | none => .ok none

/-- What the DOM queries of `extract_article_content` find on a fetched page
(the CSS-selector machinery is an external collaborator): the stripped text
of the first title/date elements, the content element with scripts, styles,
footers and comments already decomposed, and the stripped label link texts. -/
structure SoupView where
  postTitleText : Option String
  pageTitleText : Option String
  dateElemText : Option String
  contentNode : Option HNode
  labelTexts : List String

/-- Python truthiness of an optional string. -/
def pyTruthyOpt : Option String → Bool
  | none => false
  | some s => s ≠ ""

/-- The dict returned by `extract_article_content` (plus the `label` key that
`scraper.main` merges in; absent is modelled as `""`). -/
structure ArticleDoc where
  title : Option String
  date : Option PyDate
  content : Option String
  labels : List String
  url : String
  label : String

/-- `scraper.extract_article_content`; `none` input is a failed `get_page`
(transport failure already caught), and the result is `none` exactly in that
case.  The date branch can raise `ValueError` through `datetime(...)`. -/
def extract_article_content : Option SoupView → String → Except PyErr (Option ArticleDoc)
  | none, _ => .ok none
  | some soup, url => do
    let title0 : Option String :=
      match soup.postTitleText with
      | some t => if t ≠ "" then some t else none
      | none => none
    let title : Option String :=
      match title0 with
      | some t => some t
      | none =>
        match soup.pageTitleText with
        | some t => some (pyStrip (String.mk ((splitOnChar ':' t.data).headD [])))
        | none => none
    let dateFromElem ←
      match soup.dateElemText with
      | some dt =>
        match searchDate dt.data with
        | some (y, m, d) => (datetimeMk y m d).map some
        | none => pure (none : Option PyDate)
      | none => pure (none : Option PyDate)
    let date ←
      match dateFromElem with
      | some d => pure (some d)
      | none => parse_date_from_url url
    let content : Option String := soup.contentNode.map extract_text_with_structure
    return some { title := title, date := date, content := content,
                  labels := soup.labelTexts, url := url, label := "" }

/-- A discovered article stub from a label/search index page. -/
structure ArticleStub where
  title : String
  url : String
  date : Option PyDate
  label : String

/-- The merge step of `scraper.main` after a successful extraction. -/
def mergeFull (full : ArticleDoc) (stub : ArticleStub) : ArticleDoc :=
  let f1 := { full with label := stub.label }
  let f2 := if pyTruthyOpt f1.title then f1 else { f1 with title := some stub.title }
  if f2.date.isSome then f2 else { f2 with date := stub.date }

def illegalFileChar (c : Char) : Bool :=
  c = '\\' || c = '/' || c = ':' || c = '*' || c = '?' || c = '"' || c = '<' || c = '>' || c = '|'

/-- `scraper.save_article_to_markdown` as a pure document builder:
`none` when the article has no truthy content (skipped with a note). -/
def save_article_to_markdown (a : ArticleDoc) : Option (String × String) :=
  if pyTruthyOpt a.content then
    let dateStr := match a.date with | some d => isoformat d | none => "unknown-date"
    let title := a.title.getD "未知标题"
    let safeTitle := String.mk ((title.data.filter (fun c => !illegalFileChar c)).take 50)
    let labelsJoined := String.intercalate ", " a.labels
    let labelsStr := if labelsJoined ≠ "" then labelsJoined else a.label
    some (dateStr ++ "-" ++ safeTitle ++ ".md",
      "# " ++ title ++ "\n\n- 日期：" ++ dateStr ++ "\n- 链接：" ++ a.url ++
      "\n- 标签：" ++ labelsStr ++ "\n\n---\n\n" ++ a.content.getD "" ++ "\n")
  else none

/-- The content-acquisition batch loop of `scraper.main` (lines 400-416):
each article is fetched and extracted; a raised error propagates out of the
loop, a `none` extraction (failed fetch) is skipped. -/
def contentBatch (pageOf : String → Option SoupView) : List ArticleStub →
    Except PyErr (List (String × String))
  | [] => .ok []
  | stub :: rest => do
    let fullOpt ← extract_article_content (pageOf stub.url) stub.url
    let saved : List (String × String) :=
      match fullOpt with
      | some full =>
        match save_article_to_markdown (mergeFull full stub) with
        | some doc => [doc]
        | none => []
      | none => []
    let others ← contentBatch pageOf rest
    return saved ++ others

def exceptOkB {ε α : Type} : Except ε α → Bool
  | .ok _ => true
  | .error _ => false

def savedCount {ε : Type} : Except ε (List (String × String)) → Nat
  | .ok l => l.length
  | .error _ => 0

/-! ## Lemmas -/

lemma dropWhile_dropWhile (p : Char → Bool) (l : List Char) :
    List.dropWhile p (List.dropWhile p l) = List.dropWhile p l := by
  induction l with
  | nil => rfl
  | cons c t ih =>
    by_cases h : p c <;> simp [List.dropWhile_cons, h, ih]

lemma dropTrailing_append_space (p : Char → Bool) (l : List Char) (c : Char) (hc : p c = true) :
    dropTrailing p (l ++ [c]) = dropTrailing p l := by
  unfold dropTrailing
  simp [List.dropWhile_cons, hc]

lemma pyStripList_space_pad (l : List Char) :
    pyStripList ((' ' :: l) ++ [' ']) = pyStripList l := by
  have hsp : isPySpace ' ' = true := by decide
  unfold pyStripList
  rw [List.cons_append, List.dropWhile_cons, if_pos hsp]
  rw [List.dropWhile_append]
  by_cases h : (List.dropWhile isPySpace l).isEmpty
  · rw [if_pos h]
    rw [List.isEmpty_iff] at h
    rw [h]
    simp [List.dropWhile_cons, hsp, dropTrailing]
  · rw [if_neg h]
    exact dropTrailing_append_space isPySpace _ ' ' hsp

lemma dropWhile_of_dropTrailing (p : Char → Bool) (m : List Char)
    (hm : List.dropWhile p m = m) : List.dropWhile p (dropTrailing p m) = dropTrailing p m := by
  cases m with
  | nil => simp [dropTrailing]
  | cons c t =>
    have hc : p c = false := by
      by_contra hcc
      rw [Bool.not_eq_false] at hcc
      rw [List.dropWhile_cons, if_pos hcc] at hm
      have := congrArg List.length hm
      have hle := (List.dropWhile_suffix (l := t) p).length_le
      simp at this
      omega
    unfold dropTrailing
    rw [List.reverse_cons, List.dropWhile_append]
    by_cases h : (List.dropWhile p t.reverse).isEmpty
    · rw [if_pos h]
      simp [List.dropWhile_cons, hc]
    · rw [if_neg h]
      rw [List.reverse_append]
      simp [List.dropWhile_cons, hc]

lemma dropTrailing_idem (p : Char → Bool) (l : List Char) :
    dropTrailing p (dropTrailing p l) = dropTrailing p l := by
  unfold dropTrailing
  rw [List.reverse_reverse, dropWhile_dropWhile]

lemma pyStripList_idem (l : List Char) : pyStripList (pyStripList l) = pyStripList l := by
  unfold pyStripList
  rw [dropWhile_of_dropTrailing isPySpace _ (dropWhile_dropWhile isPySpace l),
    dropTrailing_idem]

lemma pyStrip_pad (u : String) : pyStrip (" " ++ u ++ " ") = pyStrip u := by
  unfold pyStrip
  have : (" " ++ u ++ " ").data = (' ' :: u.data) ++ [' '] := by
    simp [String.data_append]
  rw [this, pyStripList_space_pad]

lemma pyStrip_idem (u : String) : pyStrip (pyStrip u) = pyStrip u := by
  unfold pyStrip
  rw [pyStripList_idem]

/-! ## C2: `normalize_url` idempotence and case normalization -/

/-- C2 (counterexample): `normalize_url` is not idempotent for every string.
One application decodes one level of percent-encoding and `%` is in the safe
set, so the doubly-encoded path `/%2541` normalizes to `/%41`, which a second
application decodes further to `/A`. -/
theorem normalize_url_not_idempotent :
    normalize_url (normalize_url "http://example.com/%2541") ≠
      normalize_url "http://example.com/%2541" ∧
    normalize_url "http://example.com/%2541" = "http://example.com/%41" ∧
    normalize_url (normalize_url "http://example.com/%2541") = "http://example.com/A" := by
  refine ⟨?_, by decide, by decide⟩
  decide

/-- C2 (amended): `normalize_url` case-normalizes the scheme and host and
canonicalizes percent-encoding — `normalize_url("HTTP://Example.com/a%2fb")`
equals `normalize_url("http://example.com/a%2Fb")` (both `"http://example.com/a/b"`)
and `normalize_url` is idempotent on these inputs — but it is not idempotent
for every string. -/
theorem normalize_url_case_normalizes :
    normalize_url "HTTP://Example.com/a%2fb" = normalize_url "http://example.com/a%2Fb" ∧
    normalize_url "HTTP://Example.com/a%2fb" = "http://example.com/a/b" ∧
    normalize_url (normalize_url "HTTP://Example.com/a%2fb") =
      normalize_url "HTTP://Example.com/a%2fb" := by
  refine ⟨by decide, by decide, by decide⟩

/-! ## C9: `normalize_url` ignores surrounding whitespace -/

/-- C9: `normalize_url` ignores surrounding whitespace of its input —
`normalize_url (" " ++ u ++ " ") = normalize_url u` for every string, and
normalizing the pre-stripped input gives the same result (the stripped-away
whitespace never reaches the output). -/
theorem normalize_url_strips_whitespace (u : String) :
    normalize_url (" " ++ u ++ " ") = normalize_url u ∧
    normalize_url (pyStrip u) = normalize_url u := by
  constructor
  · unfold normalize_url
    rw [pyStrip_pad]
  · unfold normalize_url
    rw [pyStrip_idem]

lemma pyDateLt_trans {a b c : PyDate} (h1 : pyDateLt a b) (h2 : pyDateLt b c) :
    pyDateLt a c := by
  unfold pyDateLt at *; omega

lemma pyDateLe_lt_trans {a b c : PyDate} (h1 : pyDateLe a b) (h2 : pyDateLt b c) :
    pyDateLt a c := by
  unfold pyDateLt pyDateLe at *; omega

lemma pyDateLt_le_trans {a b c : PyDate} (h1 : pyDateLt a b) (h2 : pyDateLe b c) :
    pyDateLt a c := by
  unfold pyDateLt pyDateLe at *; omega

lemma pyDateLe_trans {a b c : PyDate} (h1 : pyDateLe a b) (h2 : pyDateLe b c) :
    pyDateLe a c := by
  unfold pyDateLe at *; omega

lemma pyDateLe_of_lt {a b : PyDate} (h : pyDateLt a b) : pyDateLe a b := by
  unfold pyDateLt pyDateLe at *; omega

lemma not_pyDateLe_of_lt {a b : PyDate} (h : pyDateLt a b) : ¬ pyDateLe b a := by
  unfold pyDateLt pyDateLe at *; omega

lemma not_pyDateLt_of_le {a b : PyDate} (h : pyDateLe a b) : ¬ pyDateLt b a := by
  unfold pyDateLt pyDateLe at *; omega

/-! ## C1: the walker on a three-page source whose window covers page 2 -/

/-- A well-formed raw feed entry with no content/summary/labels. -/
def simpleEntry (t u : String) (d : PyDate) : RawEntry :=
  { title := some t, links := [{ rel := "alternate", href := some u }], published := some d,
    content := none, summary := none, categories := [] }

lemma pyStrip_empty : pyStrip "" = "" := rfl

lemma parseLabels_nil : parseLabels [] = [] := rfl

lemma parseEntry_simple (t u : String) (d : PyDate) (ht : pyStrip t ≠ "") (hu : u ≠ "") :
    parseEntry (simpleEntry t u d) =
      some { title := pyStrip t, url := normalize_url u, published := d,
             labels := [], content := "" } := by
  unfold parseEntry simpleEntry extractEntryUrl
  simp only [if_true, hu, ite_true, Option.getD_some, Option.getD_none, ht, ite_not, if_false,
    ite_false, parseLabels_nil, pyStrip_empty, ite_self]

/-- C1: on a source of 3 pages of 2 entries each, publish dates strictly
decreasing across entries, with the window `[s, e]` covering only page 2's
dates, `iter_recent_posts` fetches exactly offsets 1, 1+mr, 1+2·mr (pages
1-3; page 3's oldest date being older than `s` triggers the stop) and yields
exactly page 2's two entries in page order. -/
theorem feed_walker_three_page_window
    (t1 t2 t3 t4 t5 t6 u1 u2 u3 u4 u5 u6 : String) (d1 d2 d3 d4 d5 d6 s e : PyDate) (mr : Nat)
    (ht1 : pyStrip t1 ≠ "") (ht2 : pyStrip t2 ≠ "") (ht3 : pyStrip t3 ≠ "")
    (ht4 : pyStrip t4 ≠ "") (ht5 : pyStrip t5 ≠ "") (ht6 : pyStrip t6 ≠ "")
    (hu1 : u1 ≠ "") (hu2 : u2 ≠ "") (hu3 : u3 ≠ "") (hu4 : u4 ≠ "") (hu5 : u5 ≠ "")
    (hu6 : u6 ≠ "")
    (hd12 : pyDateLt d2 d1) (hd23 : pyDateLt d3 d2) (hd34 : pyDateLt d4 d3)
    (_hd45 : pyDateLt d5 d4) (hd56 : pyDateLt d6 d5)
    (hw1 : pyDateLt e d2) (hw2 : pyDateLe d3 e) (hw3 : pyDateLe s d4) (hw4 : pyDateLt d5 s) :
    iter_recent_posts
      [[simpleEntry t1 u1 d1, simpleEntry t2 u2 d2],
       [simpleEntry t3 u3 d3, simpleEntry t4 u4 d4],
       [simpleEntry t5 u5 d5, simpleEntry t6 u6 d6]] s e mr =
    ([1, 1 + mr, 1 + mr + mr],
     [{ title := pyStrip t3, url := normalize_url u3, published := d3, labels := [], content := "" },
      { title := pyStrip t4, url := normalize_url u4, published := d4, labels := [], content := "" }]) := by
  have k1 : (decide (pyDateLe s d1 ∧ pyDateLe d1 e)) = false :=
    decide_eq_false (fun h => not_pyDateLe_of_lt (pyDateLt_trans hw1 hd12) h.2)
  have k2 : (decide (pyDateLe s d2 ∧ pyDateLe d2 e)) = false :=
    decide_eq_false (fun h => not_pyDateLe_of_lt hw1 h.2)
  have k3 : (decide (pyDateLe s d3 ∧ pyDateLe d3 e)) = true :=
    decide_eq_true ⟨pyDateLe_of_lt (pyDateLe_lt_trans hw3 hd34), hw2⟩
  have k4 : (decide (pyDateLe s d4 ∧ pyDateLe d4 e)) = true :=
    decide_eq_true ⟨hw3, pyDateLe_trans (pyDateLe_of_lt hd34) hw2⟩
  have k5 : (decide (pyDateLe s d5 ∧ pyDateLe d5 e)) = false :=
    decide_eq_false (fun h => not_pyDateLe_of_lt hw4 h.1)
  have k6 : (decide (pyDateLe s d6 ∧ pyDateLe d6 e)) = false :=
    decide_eq_false (fun h => not_pyDateLe_of_lt (pyDateLt_trans hd56 hw4) h.1)
  have n1 : ¬ pyDateLt d2 s :=
    not_pyDateLe_of_lt (pyDateLe_lt_trans hw3 (pyDateLt_trans hd34 hd23)) ∘ pyDateLe_of_lt
  have n2 : ¬ pyDateLt d4 s := not_pyDateLt_of_le hw3
  have n3 : pyDateLt d6 s := pyDateLt_trans hd56 hw4
  rw [iter_recent_posts]
  rw [iterRecentPostsGo]
  rw [if_neg (by exact List.cons_ne_nil _ _)]
  simp only [parsePage, List.filterMap_cons, List.filterMap_nil,
    parseEntry_simple t1 u1 d1 ht1 hu1, parseEntry_simple t2 u2 d2 ht2 hu2]
  simp only [oldestDate, List.foldl_cons, List.foldl_nil, hd12, if_true, ite_true]
  simp only [List.filter_cons, List.filter_nil, k1, k2, n1, ite_false, if_false,
    Bool.false_eq_true]
  rw [iterRecentPostsGo]
  rw [if_neg (by exact List.cons_ne_nil _ _)]
  simp only [parsePage, List.filterMap_cons, List.filterMap_nil,
    parseEntry_simple t3 u3 d3 ht3 hu3, parseEntry_simple t4 u4 d4 ht4 hu4]
  simp only [oldestDate, List.foldl_cons, List.foldl_nil, hd34, if_true, ite_true]
  simp only [List.filter_cons, List.filter_nil, k3, k4, n2, ite_false, if_false, ite_true,
    Bool.false_eq_true]
  rw [iterRecentPostsGo]
  rw [if_neg (by exact List.cons_ne_nil _ _)]
  simp only [parsePage, List.filterMap_cons, List.filterMap_nil,
    parseEntry_simple t5 u5 d5 ht5 hu5, parseEntry_simple t6 u6 d6 ht6 hu6]
  simp only [oldestDate, List.foldl_cons, List.foldl_nil, hd56, if_true, ite_true]
  simp only [List.filter_cons, List.filter_nil, k5, k6, n3, ite_false, if_false, ite_true,
    Bool.false_eq_true]
  simp [add_assoc]

/-- C1 witness: the schematic three-page walk at concrete dates. -/
theorem feed_walker_three_page_window_witness :
    iter_recent_posts
      [[simpleEntry "T1" "https://example.com/p1" ⟨2025, 6, 1⟩,
        simpleEntry "T2" "https://example.com/p2" ⟨2025, 5, 1⟩],
       [simpleEntry "T3" "https://example.com/p3" ⟨2025, 4, 1⟩,
        simpleEntry "T4" "https://example.com/p4" ⟨2025, 3, 1⟩],
       [simpleEntry "T5" "https://example.com/p5" ⟨2025, 2, 1⟩,
        simpleEntry "T6" "https://example.com/p6" ⟨2025, 1, 1⟩]]
      ⟨2025, 2, 15⟩ ⟨2025, 4, 15⟩ 150 =
    ([1, 151, 301],
     [{ title := pyStrip "T3", url := normalize_url "https://example.com/p3",
        published := ⟨2025, 4, 1⟩, labels := [], content := "" },
      { title := pyStrip "T4", url := normalize_url "https://example.com/p4",
        published := ⟨2025, 3, 1⟩, labels := [], content := "" }]) := by
  exact feed_walker_three_page_window "T1" "T2" "T3" "T4" "T5" "T6"
    "https://example.com/p1" "https://example.com/p2" "https://example.com/p3"
    "https://example.com/p4" "https://example.com/p5" "https://example.com/p6"
    ⟨2025, 6, 1⟩ ⟨2025, 5, 1⟩ ⟨2025, 4, 1⟩ ⟨2025, 3, 1⟩ ⟨2025, 2, 1⟩ ⟨2025, 1, 1⟩
    ⟨2025, 2, 15⟩ ⟨2025, 4, 15⟩ 150
    (by decide) (by decide) (by decide) (by decide) (by decide) (by decide)
    (by decide) (by decide) (by decide) (by decide) (by decide) (by decide)
    (by decide) (by decide) (by decide) (by decide) (by decide)
    (by decide) (by decide) (by decide) (by decide)

/-! ## C4: the walker always terminates, offsets strictly increase -/

/-- Total number of raw entries on a list of pages. -/
def sumLens (ps : List (List RawEntry)) : Nat := (ps.map List.length).sum

lemma range_one_map (idx mr : Nat) :
    [idx] = List.map (fun i => idx + i * mr) (List.range 1) := by
  simp [List.range_succ]

lemma iterRecentPostsGo_spec (s e : PyDate) (mr : Nat) :
    ∀ (pages : List (List RawEntry)) (idx : Nat),
      ∃ k, (iterRecentPostsGo s e mr pages idx).1 =
              (List.range k).map (fun i => idx + i * mr) ∧
        1 ≤ k ∧ k ≤ pages.length + 1 ∧
        (iterRecentPostsGo s e mr pages idx).2.length ≤ sumLens (pages.take k) := by
  intro pages
  induction pages with
  | nil =>
    intro idx
    refine ⟨1, ?_, le_refl 1, by simp, by simp [iterRecentPostsGo, sumLens]⟩
    rw [iterRecentPostsGo]
    exact range_one_map idx mr
  | cons page rest ih =>
    intro idx
    have hyield : (List.filter
        (fun en => decide (pyDateLe s en.published ∧ pyDateLe en.published e))
        (parsePage page)).length ≤ page.length := by
      calc (List.filter _ (parsePage page)).length
          ≤ (parsePage page).length := List.length_filter_le _ _
        _ ≤ page.length := List.length_filterMap_le _ _
    rw [iterRecentPostsGo]
    by_cases hp : page = []
    · rw [if_pos hp]
      exact ⟨1, range_one_map idx mr, le_refl 1, by simp, by simp⟩
    · rw [if_neg hp]
      cases hod : oldestDate (parsePage page) with
      | none =>
        simp only [hod]
        refine ⟨1, range_one_map idx mr, le_refl 1, by simp, ?_⟩
        simpa [sumLens] using hyield
      | some od =>
        simp only [hod]
        by_cases hlt : pyDateLt od s
        · rw [if_pos hlt]
          refine ⟨1, range_one_map idx mr, le_refl 1, by simp, ?_⟩
          simpa [sumLens] using hyield
        · rw [if_neg hlt]
          obtain ⟨k, h1, h2, h3, h4⟩ := ih (idx + mr)
          refine ⟨k + 1, ?_, by omega, by simpa using h3, ?_⟩
          · simp only [h1, List.range_succ_eq_map, List.map_cons, List.map_map]
            congr 1
            · omega
            · apply List.map_congr_left
              intro i _
              simp only [Function.comp_apply, Nat.succ_mul, Nat.succ_eq_add_one,
                Nat.add_mul, Nat.one_mul]
              omega
          · simp only [List.length_append, List.take_succ_cons, sumLens, List.map_cons,
              List.sum_cons]
            have := h4
            simp only [sumLens] at this
            omega

/-- C4: the feed walker never loops forever: the fetched offsets form the
arithmetic progression 1, 1+mr, 1+2·mr, ... of length at most one more than
the number of pages the source has; with a positive page size they are
strictly increasing and duplicate-free, and the walker never yields more
entries than the raw entries it fetched. -/
theorem feed_walker_offsets_progress (pages : List (List RawEntry)) (s e : PyDate)
    (mr : Nat) (hmr : 0 < mr) :
    (∃ k, 1 ≤ k ∧ k ≤ pages.length + 1 ∧
        (iter_recent_posts pages s e mr).1 = (List.range k).map (fun i => 1 + i * mr)) ∧
    List.Pairwise (· < ·) (iter_recent_posts pages s e mr).1 ∧
    (iter_recent_posts pages s e mr).1.Nodup ∧
    (iter_recent_posts pages s e mr).2.length ≤
      sumLens (pages.take (iter_recent_posts pages s e mr).1.length) := by
  obtain ⟨k, h1, h2, h3, h4⟩ := iterRecentPostsGo_spec s e mr pages 1
  have hpair : List.Pairwise (· < ·) (iter_recent_posts pages s e mr).1 := by
    rw [iter_recent_posts, h1]
    refine List.Pairwise.map _ ?_ (List.pairwise_lt_range k)
    intro a b hab
    have : a * mr < b * mr := (Nat.mul_lt_mul_right hmr).mpr hab
    omega
  refine ⟨⟨k, h2, h3, h1⟩, hpair, ?_, ?_⟩
  · exact hpair.imp (fun h => Nat.ne_of_lt h)
  · have hlen : (iter_recent_posts pages s e mr).1.length = k := by
      rw [iter_recent_posts, h1]; simp
    rw [hlen]
    exact h4

/-- C4 witness: the offset/length bounds at a concrete two-page source. -/
theorem feed_walker_offsets_progress_witness :
    0 < 150 ∧
    ((∃ k, 1 ≤ k ∧ k ≤ 2 + 1 ∧
        (iter_recent_posts
          [[simpleEntry "A" "https://example.com/a" ⟨2024, 3, 1⟩],
           [simpleEntry "B" "https://example.com/b" ⟨2024, 2, 1⟩]]
          ⟨2024, 1, 1⟩ ⟨2024, 12, 31⟩ 150).1 = (List.range k).map (fun i => 1 + i * 150)) ∧
      List.Pairwise (· < ·)
        (iter_recent_posts
          [[simpleEntry "A" "https://example.com/a" ⟨2024, 3, 1⟩],
           [simpleEntry "B" "https://example.com/b" ⟨2024, 2, 1⟩]]
          ⟨2024, 1, 1⟩ ⟨2024, 12, 31⟩ 150).1 ∧
      (iter_recent_posts
          [[simpleEntry "A" "https://example.com/a" ⟨2024, 3, 1⟩],
           [simpleEntry "B" "https://example.com/b" ⟨2024, 2, 1⟩]]
          ⟨2024, 1, 1⟩ ⟨2024, 12, 31⟩ 150).1.Nodup ∧
      (iter_recent_posts
          [[simpleEntry "A" "https://example.com/a" ⟨2024, 3, 1⟩],
           [simpleEntry "B" "https://example.com/b" ⟨2024, 2, 1⟩]]
          ⟨2024, 1, 1⟩ ⟨2024, 12, 31⟩ 150).2.length ≤
        sumLens ([[simpleEntry "A" "https://example.com/a" ⟨2024, 3, 1⟩],
           [simpleEntry "B" "https://example.com/b" ⟨2024, 2, 1⟩]].take
          (iter_recent_posts
            [[simpleEntry "A" "https://example.com/a" ⟨2024, 3, 1⟩],
             [simpleEntry "B" "https://example.com/b" ⟨2024, 2, 1⟩]]
            ⟨2024, 1, 1⟩ ⟨2024, 12, 31⟩ 150).1.length)) :=
  ⟨by decide,
   feed_walker_offsets_progress
     [[simpleEntry "A" "https://example.com/a" ⟨2024, 3, 1⟩],
      [simpleEntry "B" "https://example.com/b" ⟨2024, 2, 1⟩]]
     ⟨2024, 1, 1⟩ ⟨2024, 12, 31⟩ 150 (by decide)⟩

/-! ## C5: classifier evaluation order and short-circuiting -/

lemma classify_chain (b1 b2 b3 : Bool) :
    (if b1 then true else if b2 then true else if b3 then true else false) =
      (b1 || b2 || b3) := by
  cases b1 <;> cases b2 <;> cases b3 <;> simp

/-- C5: the classifier matches exactly when the label criterion hits, else the
title criterion, else the content criterion; an empty criterion is skipped
and can never contribute a match; and once the label criterion hits, the
result does not depend on the title/content patterns at all (they are not
evaluated). -/
theorem classifier_short_circuit (L T C : List String) (e : FeedEntry) :
    (classifyEntry L T C e =
      ((!L.isEmpty && e.labels.any (fun label => L.contains label)) ||
       (!T.isEmpty && searchAny T e.title) ||
       (!C.isEmpty && searchAny C e.content))) ∧
    (classifyEntry [] T C e =
      ((!T.isEmpty && searchAny T e.title) || (!C.isEmpty && searchAny C e.content))) ∧
    (classifyEntry L [] C e =
      ((!L.isEmpty && e.labels.any (fun label => L.contains label)) ||
       (!C.isEmpty && searchAny C e.content))) ∧
    (classifyEntry L T [] e =
      ((!L.isEmpty && e.labels.any (fun label => L.contains label)) ||
       (!T.isEmpty && searchAny T e.title))) ∧
    ((!L.isEmpty && e.labels.any (fun label => L.contains label)) = true →
      ∀ T' C' : List String, classifyEntry L T' C' e = true) := by
  refine ⟨?_, ?_, ?_, ?_, ?_⟩
  · exact classify_chain _ _ _
  · rw [classifyEntry, classify_chain]
    simp
  · rw [classifyEntry, classify_chain]
    simp
  · rw [classifyEntry, classify_chain]
    simp
  · intro h T' C'
    rw [classifyEntry]
    rw [h]
    rfl

/-- C5 witness: a record with a matching label is classified as a match for
any title/content keyword configuration. -/
theorem classifier_short_circuit_witness :
    ((!(["读后感"] : List String).isEmpty &&
        (["读后感", "电影"].any (fun label => (["读后感"] : List String).contains label))) = true) ∧
    classifyEntry ["读后感"] ["绝不出现"] ["也不出现"]
      { title := "某书", url := "u", published := ⟨2024, 1, 1⟩,
        labels := ["读后感", "电影"], content := "正文" } = true :=
  ⟨by decide,
   (classifier_short_circuit ["读后感"] ["标"] ["文"]
      { title := "某书", url := "u", published := ⟨2024, 1, 1⟩,
        labels := ["读后感", "电影"], content := "正文" }).2.2.2.2
     (by decide) ["绝不出现"] ["也不出现"]⟩

/-! ## C6: the gap reporter's missing set and its ordering -/

lemma charListLeB_total : ∀ a b : List Char, charListLeB a b = true ∨ charListLeB b a = true
  | [], _ => Or.inl rfl
  | _ :: _, [] => Or.inr rfl
  | a :: as, b :: bs => by
    rcases lt_trichotomy a b with h | h | h
    · left; simp [charListLeB, h]
    · subst h
      rcases charListLeB_total as bs with ih | ih
      · left; simp [charListLeB, lt_irrefl, ih]
      · right; simp [charListLeB, lt_irrefl, ih]
    · right; simp [charListLeB, h]

lemma charListLeB_trans : ∀ a b c : List Char,
    charListLeB a b = true → charListLeB b c = true → charListLeB a c = true
  | [], _, _ => by intro _ _; rfl
  | a :: as, [], _ => by intro h _; simp [charListLeB] at h
  | a :: as, b :: bs, [] => by intro _ h; simp [charListLeB] at h
  | a :: as, b :: bs, c :: cs => by
    intro h1 h2
    rcases lt_trichotomy a b with hab | hab | hab
    · rcases lt_trichotomy b c with hbc | hbc | hbc
      · simp [charListLeB, lt_trans hab hbc]
      · subst hbc; simp [charListLeB, hab]
      · rw [charListLeB, if_neg (lt_asymm hbc), if_pos hbc] at h2
        exact absurd h2 (by simp)
    · subst hab
      rcases lt_trichotomy a c with hac | hac | hac
      · simp [charListLeB, hac]
      · subst hac
        rw [charListLeB, if_neg (lt_irrefl a), if_neg (lt_irrefl a)] at h1 h2 ⊢
        exact charListLeB_trans as bs cs h1 h2
      · rw [charListLeB, if_neg (lt_asymm hac), if_pos hac] at h2
        exact absurd h2 (by simp)
    · rw [charListLeB, if_neg (lt_asymm hab), if_pos hab] at h1
      exact absurd h1 (by simp)

instance : IsTotal FeedEntry entryKeyLe := by
  constructor
  intro a b
  by_cases hd : a.published = b.published
  · rcases charListLeB_total a.url.data b.url.data with h | h
    · exact Or.inl (Or.inr ⟨hd, h⟩)
    · exact Or.inr (Or.inr ⟨hd.symm, h⟩)
  · have : pyDateLt a.published b.published ∨ pyDateLt b.published a.published := by
      rcases hp : a.published with ⟨y1, m1, dd1⟩
      rcases hq : b.published with ⟨y2, m2, dd2⟩
      rw [hp, hq] at hd
      simp only [PyDate.mk.injEq] at hd
      unfold pyDateLt
      dsimp only
      omega
    rcases this with h | h
    · exact Or.inl (Or.inl h)
    · exact Or.inr (Or.inl h)

instance : IsTrans FeedEntry entryKeyLe := by
  constructor
  intro a b c h1 h2
  rcases h1 with h1 | ⟨h1e, h1u⟩
  · rcases h2 with h2 | ⟨h2e, h2u⟩
    · exact Or.inl (pyDateLt_trans h1 h2)
    · exact Or.inl (h2e ▸ h1)
  · rcases h2 with h2 | ⟨h2e, h2u⟩
    · exact Or.inl (h1e ▸ h2)
    · exact Or.inr ⟨h1e.trans h2e, charListLeB_trans _ _ _ h1u h2u⟩

lemma auditLoop_step_spec (L T C localUrls : List String) :
    ∀ (stream : List FeedEntry) (m0 g0 : List FeedEntry),
      stream.foldl (auditStep L T C localUrls) (m0, g0) =
        (m0 ++ stream.filter (classifyEntry L T C),
         g0 ++ (stream.filter (classifyEntry L T C)).filter
            (fun e => !localUrls.contains e.url)) := by
  intro stream
  induction stream with
  | nil => intro m0 g0; simp
  | cons e t ih =>
    intro m0 g0
    rw [List.foldl_cons]
    by_cases hc : classifyEntry L T C e
    · by_cases hl : localUrls.contains e.url
      · have hm : e.url ∈ localUrls := by simpa using hl
        rw [show auditStep L T C localUrls (m0, g0) e = (m0 ++ [e], g0) by
          simp [auditStep, hc, hl, hm]]
        rw [ih]
        simp [List.filter_cons, hc, hl, hm]
      · have hm : e.url ∉ localUrls := by simpa using hl
        rw [show auditStep L T C localUrls (m0, g0) e = (m0 ++ [e], g0 ++ [e]) by
          simp [auditStep, hc, hl, hm]]
        rw [ih]
        simp [List.filter_cons, hc, hl, hm]
    · rw [show auditStep L T C localUrls (m0, g0) e = (m0, g0) by
        simp [auditStep, hc]]
      rw [ih]
      simp [List.filter_cons, hc]

/-- C6: the audit loop produces `matched = filter classify stream` and
`missing = { r in matched : r.url not in localIndex }` (record URLs are
normalized at construction, the local index at read time); the rendered list
`sortMissing missing` is a permutation of `missing` sorted ascending by the
`(published, url)` key for every arrival order; and on the concrete
`{U1}` / `{U1, U2}` example the missing set is exactly the `U2` record. -/
theorem gap_reporter_missing_sorted :
    (∀ (L T C localUrls : List String) (stream : List FeedEntry),
      (auditLoop L T C localUrls stream).1 = stream.filter (classifyEntry L T C) ∧
      (auditLoop L T C localUrls stream).2 =
        ((auditLoop L T C localUrls stream).1).filter (fun e => !localUrls.contains e.url) ∧
      List.Sorted entryKeyLe (sortMissing ((auditLoop L T C localUrls stream).2)) ∧
      (sortMissing ((auditLoop L T C localUrls stream).2)).Perm
        ((auditLoop L T C localUrls stream).2)) ∧
    (auditLoop ["读后感"] [] [] [normalize_url "https://example.com/2024/01/a.html"]
        [{ title := "A", url := normalize_url "https://example.com/2024/01/a.html",
           published := ⟨2024, 1, 5⟩, labels := ["读后感"], content := "" },
         { title := "B", url := normalize_url "https://example.com/2024/01/b.html",
           published := ⟨2024, 1, 6⟩, labels := ["读后感"], content := "" }]).2 =
      [{ title := "B", url := normalize_url "https://example.com/2024/01/b.html",
         published := ⟨2024, 1, 6⟩, labels := ["读后感"], content := "" }] ∧
    sortMissing
        [{ title := "B", url := normalize_url "https://example.com/2024/01/b.html",
           published := ⟨2024, 1, 6⟩, labels := ["读后感"], content := "" },
         { title := "A", url := normalize_url "https://example.com/2024/01/a.html",
           published := ⟨2024, 1, 5⟩, labels := ["读后感"], content := "" }] =
      [{ title := "A", url := normalize_url "https://example.com/2024/01/a.html",
         published := ⟨2024, 1, 5⟩, labels := ["读后感"], content := "" },
       { title := "B", url := normalize_url "https://example.com/2024/01/b.html",
         published := ⟨2024, 1, 6⟩, labels := ["读后感"], content := "" }] := by
  refine ⟨?_, by decide, by decide⟩
  intro L T C localUrls stream
  have h := auditLoop_step_spec L T C localUrls stream [] []
  rw [auditLoop, h]
  refine ⟨by simp, by simp, ?_, List.perm_insertionSort entryKeyLe _⟩
  exact List.sorted_insertionSort entryKeyLe _

/-! ## C3: the three report renderings and the run-level summary -/

lemma listContainsSub_here (pat b : List Char) : listContainsSub pat (pat ++ b) = true := by
  cases pat with
  | nil =>
    cases b with
    | nil => rfl
    | cons c t => simp [listContainsSub]
  | cons p ps =>
    have hpre : (p :: ps).isPrefixOf ((p :: ps) ++ b) = true :=
      List.isPrefixOf_iff_prefix.mpr ⟨b, rfl⟩
    show listContainsSub (p :: ps) (p :: (ps ++ b)) = true
    simp only [listContainsSub]
    rw [show p :: (ps ++ b) = (p :: ps) ++ b from rfl, hpre, Bool.true_or]

lemma listContainsSub_append : ∀ (a : List Char) (pat b : List Char),
    listContainsSub pat (a ++ pat ++ b) = true
  | [], pat, b => by simpa using listContainsSub_here pat b
  | x :: xs, pat, b => by
    have ih : listContainsSub pat (xs ++ (pat ++ b)) = true := by
      simpa [List.append_assoc] using listContainsSub_append xs pat b
    show listContainsSub pat (x :: (xs ++ pat ++ b)) = true
    simp [listContainsSub, ih]

lemma containsSub_of_split (hay x pat y : String) (h : hay = x ++ (pat ++ y)) :
    containsSub hay pat = true := by
  subst h
  unfold containsSub
  have : (x ++ (pat ++ y)).data = x.data ++ pat.data ++ y.data := by
    simp [String.data_append]
  rw [this]
  exact listContainsSub_append x.data pat.data y.data

/-- C3 (counterexample): for a run with an empty missing list, the CSV
rendering is just the header row and contains neither the count fields nor
the date window of the run summary, while the text and JSON renderings do
contain the summary. -/
theorem csv_report_omits_summary :
    write_csv ⟨"https://www.hecaitou.com", "2022-01-01", "2025-01-01", "articles", 5, 2, 1⟩ [] =
      "published,title,url,labels\r\n" ∧
    containsSub
      (write_csv ⟨"https://www.hecaitou.com", "2022-01-01", "2025-01-01", "articles", 5, 2, 1⟩ [])
      "local_count" = false ∧
    containsSub
      (write_csv ⟨"https://www.hecaitou.com", "2022-01-01", "2025-01-01", "articles", 5, 2, 1⟩ [])
      "2022-01-01" = false ∧
    containsSub
      (write_text ⟨"https://www.hecaitou.com", "2022-01-01", "2025-01-01", "articles", 5, 2, 1⟩ [])
      "local_count" = true ∧
    containsSub
      (write_json ⟨"https://www.hecaitou.com", "2022-01-01", "2025-01-01", "articles", 5, 2, 1⟩ [])
      "local_count" = true := by
  refine ⟨by decide, by decide, by decide, by decide, by decide⟩

/-- C3 (amended): the three renderings are pure projections of the same
sorted missing list plus the run-level summary — each output depends on the
missing records only through their sorted order; the text and JSON outputs
contain the summary (its `local_count` field in particular), while the CSV
output does not depend on the summary at all. -/
theorem report_renderings_projection (s : Summary) (m m' : List FeedEntry)
    (h : sortMissing m = sortMissing m') :
    (write_text s m = write_text s m' ∧ write_json s m = write_json s m' ∧
      write_csv s m = write_csv s m') ∧
    containsSub (write_text s m) "local_count" = true ∧
    containsSub (write_json s m) "local_count" = true ∧
    (∀ s' : Summary, write_csv s' m = write_csv s m) := by
  refine ⟨⟨?_, ?_, ?_⟩, ?_, ?_, ?_⟩
  · rw [write_text, write_text, h]
  · rw [write_json, write_json, h]
  · rw [write_csv, write_csv, h]
  · apply containsSub_of_split _
      ("\x7b\"base_url\": " ++ jsonStr s.base_url ++ ", \"from\": " ++ jsonStr s.fromDate ++
        ", \"to\": " ++ jsonStr s.toDate ++ ", \"local_dir\": " ++ jsonStr s.local_dir ++ ", \"")
      "local_count"
      ("\": " ++ Nat.repr s.local_count ++ ", \"matched_count\": " ++ Nat.repr s.matched_count ++
        ", \"missing_count\": " ++ Nat.repr s.missing_count ++ "\x7d" ++ "\n" ++
        String.join ((sortMissing m).map textRow))
    rw [write_text, summaryJson]
    rw [show (", \"local_count\": " : String) = ", \"" ++ ("local_count" ++ "\": ") from by decide]
    simp only [String.append_assoc]
  · apply containsSub_of_split _
      ("\x7b\n  \"base_url\": " ++ jsonStr s.base_url ++ ",\n  \"from\": " ++ jsonStr s.fromDate ++
        ",\n  \"to\": " ++ jsonStr s.toDate ++ ",\n  \"local_dir\": " ++ jsonStr s.local_dir ++
        ",\n  \"")
      "local_count"
      ("\": " ++ Nat.repr s.local_count ++ ",\n  \"matched_count\": " ++
        Nat.repr s.matched_count ++ ",\n  \"missing_count\": " ++ Nat.repr s.missing_count ++
        ",\n  \"missing\": " ++ jsonMissingArr (sortMissing m) ++ "\n\x7d\n")
    rw [write_json]
    rw [show (",\n  \"local_count\": " : String) = ",\n  \"" ++ ("local_count" ++ "\": ")
      from by decide]
    simp only [String.append_assoc]
  · intro s'
    rw [write_csv, write_csv]

/-- C3 witness: the projection properties at a concrete summary and a
concrete missing list. -/
theorem report_renderings_projection_witness :
    sortMissing ([] : List FeedEntry) = sortMissing ([] : List FeedEntry) ∧
    ((write_text ⟨"b", "f", "t", "d", 1, 2, 1⟩ [] = write_text ⟨"b", "f", "t", "d", 1, 2, 1⟩ [] ∧
      write_json ⟨"b", "f", "t", "d", 1, 2, 1⟩ [] = write_json ⟨"b", "f", "t", "d", 1, 2, 1⟩ [] ∧
      write_csv ⟨"b", "f", "t", "d", 1, 2, 1⟩ [] = write_csv ⟨"b", "f", "t", "d", 1, 2, 1⟩ []) ∧
    containsSub (write_text ⟨"b", "f", "t", "d", 1, 2, 1⟩ []) "local_count" = true ∧
    containsSub (write_json ⟨"b", "f", "t", "d", 1, 2, 1⟩ []) "local_count" = true ∧
    (∀ s' : Summary, write_csv s' [] = write_csv ⟨"b", "f", "t", "d", 1, 2, 1⟩ [])) :=
  ⟨rfl, report_renderings_projection ⟨"b", "f", "t", "d", 1, 2, 1⟩ [] [] rfl⟩

/-! ## C7: extractor per-tag block policy -/

lemma getTextStripList_single (t : String) : getTextStripList [.text t] = pyStrip t := by
  simp only [getTextStripList, getTextStrip, String.append_empty]

lemma extractLines_single (n : HNode) : extractLines [n] = extractChildLines n := by
  simp only [extractLines, List.append_nil]

lemma extractChildLines_heading_case (nm : String) (t : String)
    (hp : (nm = "p" ∨ nm = "div") = False)
    (hh : (nm = "h1" ∨ nm = "h2" ∨ nm = "h3" ∨ nm = "h4" ∨ nm = "h5" ∨ nm = "h6") = True)
    (ht : pyStrip t ≠ "") :
    extractChildLines (.elem nm [] [.text t]) =
      [String.mk (List.replicate (headingLevel nm + 1) '#') ++ " " ++ pyStrip t, ""] := by
  simp only [extractChildLines, hp, hh, getTextStripList_single, ht, ite_true, ite_false,
    if_true, if_false, ite_not, ne_eq, not_false_iff]

/-- C7: the extractor's per-tag block policy — a node holding exactly the two
non-empty paragraphs `"A"`, `"B"` yields blocks `["A", "", "B", ""]` joined as
`"A\n\nB\n"`; an unordered list with direct items `"x"`, `""`, `"y"` yields
`["- x", "- y", ""]` (the empty item skipped, one blank separator after the
whole list); and for every heading level `1 ≤ n ≤ 6` and non-blank text, the
`hn` element yields `"#"*(n+1) ++ " " ++ text` followed by a blank separator. -/
theorem extractor_block_policy :
    extract_text_with_structure
        (.elem "div" [] [.elem "p" [] [.text "A"], .elem "p" [] [.text "B"]]) = "A\n\nB\n" ∧
    extractLines [.elem "p" [] [.text "A"], .elem "p" [] [.text "B"]] = ["A", "", "B", ""] ∧
    extractLines
        [.elem "ul" [] [.elem "li" [] [.text "x"], .elem "li" [] [.text ""],
          .elem "li" [] [.text "y"]]] = ["- x", "- y", ""] ∧
    (∀ n : Nat, 1 ≤ n → n ≤ 6 → ∀ t : String, pyStrip t ≠ "" →
      extractLines [.elem ("h" ++ Nat.repr n) [] [.text t]] =
        [String.mk (List.replicate (n + 1) '#') ++ " " ++ pyStrip t, ""]) := by
  refine ⟨by decide, by decide, by decide, ?_⟩
  intro n h1 h6 t ht
  have hcase : n = 1 ∨ n = 2 ∨ n = 3 ∨ n = 4 ∨ n = 5 ∨ n = 6 := by omega
  rw [extractLines_single]
  rcases hcase with h | h | h | h | h | h <;> subst h
  · rw [show ("h" ++ Nat.repr 1 : String) = "h1" from by decide,
      extractChildLines_heading_case "h1" t (by decide) (by decide) ht,
      show headingLevel "h1" = 1 from by decide]
  · rw [show ("h" ++ Nat.repr 2 : String) = "h2" from by decide,
      extractChildLines_heading_case "h2" t (by decide) (by decide) ht,
      show headingLevel "h2" = 2 from by decide]
  · rw [show ("h" ++ Nat.repr 3 : String) = "h3" from by decide,
      extractChildLines_heading_case "h3" t (by decide) (by decide) ht,
      show headingLevel "h3" = 3 from by decide]
  · rw [show ("h" ++ Nat.repr 4 : String) = "h4" from by decide,
      extractChildLines_heading_case "h4" t (by decide) (by decide) ht,
      show headingLevel "h4" = 4 from by decide]
  · rw [show ("h" ++ Nat.repr 5 : String) = "h5" from by decide,
      extractChildLines_heading_case "h5" t (by decide) (by decide) ht,
      show headingLevel "h5" = 5 from by decide]
  · rw [show ("h" ++ Nat.repr 6 : String) = "h6" from by decide,
      extractChildLines_heading_case "h6" t (by decide) (by decide) ht,
      show headingLevel "h6" = 6 from by decide]

/-- C7 witness: the heading clause at level 3 and text `"T"`. -/
theorem extractor_block_policy_witness :
    1 ≤ 3 ∧ 3 ≤ 6 ∧ pyStrip "T" ≠ "" ∧
    extractLines [.elem ("h" ++ Nat.repr 3) [] [.text "T"]] =
      [String.mk (List.replicate (3 + 1) '#') ++ " " ++ pyStrip "T", ""] :=
  ⟨by decide, by decide, by decide,
   extractor_block_policy.2.2.2 3 (by decide) (by decide) "T" (by decide)⟩

/-! ## C8: per-article failure isolation in the content batch loop -/

instance {ε α : Type} [DecidableEq ε] [DecidableEq α] : DecidableEq (Except ε α) :=
  fun a b =>
    match a, b with
    | .ok x, .ok y =>
      if h : x = y then isTrue (by rw [h]) else isFalse (fun hc => by cases hc; exact h rfl)
    | .error x, .error y =>
      if h : x = y then isTrue (by rw [h]) else isFalse (fun hc => by cases hc; exact h rfl)
    | .ok _, .error _ => isFalse (fun hc => by cases hc)
    | .error _, .ok _ => isFalse (fun hc => by cases hc)

/-- A fetched page whose date element text `"发布于 2024-1-40"` matches the
date regex with an out-of-range day, so `datetime(2024, 1, 40)` raises. -/
def soupBadDate : SoupView :=
  { postTitleText := some "标题一", pageTitleText := none,
    dateElemText := some "发布于 2024-1-40",
    contentNode := some (.text "正文内容"), labelTexts := ["读后感"] }

/-- A well-formed fetched page. -/
def soupFine : SoupView :=
  { postTitleText := some "标题二", pageTitleText := none,
    dateElemText := some "2024-03-07",
    contentNode := some (.text "第二篇正文"), labelTexts := [] }

/-- The transport collaborator for the C8 scenario: one page with a malformed
date, one good page, anything else a failed fetch. -/
def pageOfC8 : String → Option SoupView := fun u =>
  if u = "https://www.hecaitou.com/2024/01/bad.html" then some soupBadDate
  else if u = "https://www.hecaitou.com/2024/02/good.html" then some soupFine
  else none

def stubBad : ArticleStub :=
  { title := "坏文章", url := "https://www.hecaitou.com/2024/01/bad.html",
    date := none, label := "读后感" }

def stubGood : ArticleStub :=
  { title := "好文章", url := "https://www.hecaitou.com/2024/02/good.html",
    date := none, label := "读后感" }

def stubNoFetch : ArticleStub :=
  { title := "取不到", url := "https://www.hecaitou.com/2024/03/gone.html",
    date := none, label := "读后感" }

/-- C8 (counterexample): a `ValueError` raised while extracting the first
article's date aborts the whole batch — the second article, which alone is
processed and saved, is never reached. -/
theorem extraction_error_aborts_batch :
    contentBatch pageOfC8 [stubBad, stubGood] =
      .error (.valueError "date component out of range") ∧
    exceptOkB (contentBatch pageOfC8 [stubGood]) = true ∧
    savedCount (contentBatch pageOfC8 [stubGood]) = 1 ∧
    savedCount (contentBatch pageOfC8 [stubBad, stubGood]) = 0 := by
  refine ⟨by decide, by decide, by decide, by decide⟩

/-- C8 (amended): a transport failure fetching one article is isolated — when
`get_page` returns no page for an article, the batch result is exactly the
result of the batch without that article, so the remaining articles are still
processed; failures raised during extraction itself (such as the out-of-range
date above) are not caught and abort the batch. -/
theorem fetch_failure_isolated (pageOf : String → Option SoupView)
    (pre post : List ArticleStub) (a : ArticleStub) (h : pageOf a.url = none) :
    contentBatch pageOf (pre ++ a :: post) = contentBatch pageOf (pre ++ post) := by
  induction pre with
  | nil =>
    simp only [List.nil_append]
    cases hR : contentBatch pageOf post with
    | ok l => simp [contentBatch, h, extract_article_content, hR, Bind.bind, Except.bind, Pure.pure, Except.pure]
    | error e => simp [contentBatch, h, extract_article_content, hR, Bind.bind, Except.bind]
  | cons p pre ih =>
    simp only [List.cons_append]
    cases hE : extract_article_content (pageOf p.url) p.url with
    | ok fo => simp [contentBatch, hE, ih]
    | error e => simp [contentBatch, hE, Bind.bind, Except.bind]

/-- C8 witness: dropping an unfetchable article from a concrete batch leaves
the batch result unchanged. -/
theorem fetch_failure_isolated_witness :
    pageOfC8 stubNoFetch.url = none ∧
    contentBatch pageOfC8 ([stubGood] ++ stubNoFetch :: []) =
      contentBatch pageOfC8 ([stubGood] ++ []) :=
  ⟨rfl, fetch_failure_isolated pageOfC8 [stubGood] [] stubNoFetch rfl⟩

/-! ## C10: the local archive index -/

/-- File text contributes the normalized URL `u`: its first link line's
payload strips to a non-empty string normalizing to `u`. -/
def fileContributes (text u : String) : Prop :=
  ∃ raw, firstLinkLine text = some raw ∧ pyStrip raw ≠ "" ∧ u = normalize_url (pyStrip raw)

lemma read_step_mem (acc : List String) (f : String × String) (u : String) :
    (u ∈ (match firstLinkLine f.2 with
          | none => acc
          | some raw =>
            let url := pyStrip raw
            if url ≠ "" then
              (if acc.contains (normalize_url url) then acc else acc ++ [normalize_url url])
            else acc)) ↔ (u ∈ acc ∨ fileContributes f.2 u) := by
  cases hf : firstLinkLine f.2 with
  | none => simp [fileContributes, hf]
  | some raw =>
    dsimp only
    by_cases hs : pyStrip raw ≠ ""
    · rw [if_pos hs]
      by_cases hc : acc.contains (normalize_url (pyStrip raw))
      · rw [if_pos hc]
        have hm : normalize_url (pyStrip raw) ∈ acc := by simpa using hc
        constructor
        · exact fun h => Or.inl h
        · rintro (h | ⟨raw', hr', _, he'⟩)
          · exact h
          · rw [hf] at hr'
            cases hr'
            rw [he']
            exact hm
      · rw [if_neg hc]
        rw [List.mem_append]
        constructor
        · rintro (h | h)
          · exact Or.inl h
          · refine Or.inr ⟨raw, hf, hs, ?_⟩
            simpa using h
        · rintro (h | ⟨raw', hr', _, he'⟩)
          · exact Or.inl h
          · rw [hf] at hr'
            cases hr'
            exact Or.inr (by simpa using he')
    · rw [if_neg hs]
      rw [not_not] at hs
      constructor
      · exact fun h => Or.inl h
      · rintro (h | ⟨raw', hr', hs', _⟩)
        · exact h
        · rw [hf] at hr'
          cases hr'
          exact absurd hs hs'

lemma read_fold_mem :
    ∀ (L : List (String × String)) (acc : List String) (u : String),
      (u ∈ L.foldl
        (fun urls f =>
          match firstLinkLine f.2 with
          | none => urls
          | some raw =>
            let url := pyStrip raw
            if url ≠ "" then
              (if urls.contains (normalize_url url) then urls else urls ++ [normalize_url url])
            else urls)
        acc) ↔ (u ∈ acc ∨ ∃ p ∈ L, fileContributes p.2 u) := by
  intro L
  induction L with
  | nil => intro acc u; simp
  | cons f rest ih =>
    intro acc u
    rw [List.foldl_cons, ih, read_step_mem]
    constructor
    · rintro ((h | h) | ⟨p, hp, hcp⟩)
      · exact Or.inl h
      · exact Or.inr ⟨f, List.mem_cons_self f rest, h⟩
      · exact Or.inr ⟨p, List.mem_cons_of_mem f hp, hcp⟩
    · rintro (h | ⟨p, hp, hcp⟩)
      · exact Or.inl (Or.inl h)
      · rcases List.mem_cons.mp hp with hpf | hpr
        · exact Or.inl (Or.inr (hpf ▸ hcp))
        · exact Or.inr ⟨p, hpr, hcp⟩

/-- C10: the local archive index contains exactly the normalized URLs
recovered from the `.md`-named files' first `- 链接：` line, skipping files
with no such line or a blank payload; every member of the index is
`normalize_url` of a stripped link-line payload of some `.md` file. -/
theorem read_local_urls_spec (files : List (String × String)) (u : String) :
    u ∈ read_local_urls files ↔
      ∃ p ∈ files, (".md").data.isSuffixOf p.1.data = true ∧
        ∃ raw, firstLinkLine p.2 = some raw ∧ pyStrip raw ≠ "" ∧
          u = normalize_url (pyStrip raw) := by
  rw [read_local_urls, read_fold_mem]
  simp only [List.mem_nil_iff, false_or]
  constructor
  · rintro ⟨p, hp, hcp⟩
    have hp' : p ∈ files.filter (fun f => (".md").data.isSuffixOf f.1.data) :=
      (List.perm_insertionSort fileLeRel _).mem_iff.mp hp
    rcases List.mem_filter.mp hp' with ⟨hmem, hsuf⟩
    exact ⟨p, hmem, hsuf, hcp⟩
  · rintro ⟨p, hmem, hsuf, hcp⟩
    refine ⟨p, ?_, hcp⟩
    exact (List.perm_insertionSort fileLeRel _).mem_iff.mpr
      (List.mem_filter.mpr ⟨hmem, hsuf⟩)

end Hecaitou
